import Mathlib

/-!
Verification development for the pyrepo release tooling.

This file gives a shallow embedding, in Lean 4, of the parts of the
repository that the specification's claims are about:

* `src/pyrepo/commands/release.py` — the release state machine
  (`Project.end_dev`, `Project.begin_dev`, `Project.build`,
  `Project.get_changelog`, `Project.set_changelog`, the `cli` phase
  sequence, `next_version`, `mime_type`);
* `src/pyrepo/gh.py` — the GitHub client (`GitHub.__call__`, `paginate`);
* `src/pyrepo/commands/mkgithub.py` — the repository bootstrap flow's
  label-creation step.

Machine integers do not appear (Python's ints are unbounded, as are Lean's
`Nat`); fallible code is embedded with `Option`/`Except`.
-/

set_option maxRecDepth 8192

instance {ε α : Type} [DecidableEq ε] [DecidableEq α] : DecidableEq (Except ε α) := fun a b =>
  match a, b with
  | .ok x, .ok y =>
    if h : x = y then isTrue (by rw [h]) else isFalse (fun hh => h (Except.ok.inj hh))
  | .error x, .error y =>
    if h : x = y then isTrue (by rw [h]) else isFalse (fun hh => h (Except.error.inj hh))
  | .ok _, .error _ => isFalse (fun hh => Except.noConfusion hh)
  | .error _, .ok _ => isFalse (fun hh => Except.noConfusion hh)

namespace PyRepo

/-! ## PEP 440 version strings

`next_version` in `release.py` is built on `packaging.version.Version`.
The definitions below embed the `packaging` version parser (the anchored,
case-insensitive PEP 440 regular expression) as a deterministic scanner
over the lowercased character list, together with the `Version` attributes
the source consults: `epoch`, `release`, `pre`, `post`, `dev`,
`is_prerelease` and `base_version`.
-/

/-- Lowercase one ASCII character (the regex is compiled with IGNORECASE). -/
def asciiLower (c : Char) : Char :=
  if 'A' ≤ c ∧ c ≤ 'Z' then Char.ofNat (c.toNat + 32) else c

/-- ASCII whitespace, for the `^\s*` / `\s*$` padding of the version regex. -/
def isPySpace (c : Char) : Bool :=
  c == ' ' || c == '\t' || c == '\n' || c == '\r' ||
    c == Char.ofNat 11 || c == Char.ofNat 12

/-- Split a character list into its longest digit prefix and the rest
(the regex atom `[0-9]+`, greedy). -/
def spanDigits : List Char → List Char × List Char
  | [] => ([], [])
  | c :: cs =>
    if c.isDigit then
      let p := spanDigits cs
      (c :: p.1, p.2)
    else ([], c :: cs)

/-- Numeric value of a digit run (Python's `int`). -/
def digitsToNat (l : List Char) : Nat :=
  l.foldl (fun n c => 10 * n + (c.toNat - 48)) 0

/-- Scanner for the release component `[0-9]+(\.[0-9]+)*` after its first
digit: `cur` is the value of the component being read, `acc` the completed
components. A dot is consumed only when a digit follows (greedy `(\.[0-9]+)*`);
anything else ends the release part. Structural in the input list. -/
def relTail : List Char → Nat → List Nat → List Nat × List Char
  | '.' :: d :: cs, cur, acc =>
    if d.isDigit then relTail cs (d.toNat - 48) (acc ++ [cur])
    else (acc ++ [cur], '.' :: d :: cs)
  | ['.'], cur, acc => (acc ++ [cur], ['.'])
  | c :: cs, cur, acc =>
    if c.isDigit then relTail cs (10 * cur + (c.toNat - 48)) acc
    else (acc ++ [cur], c :: cs)
  | [], cur, acc => (acc ++ [cur], [])

/-- One optional separator character, the regex atom `[-_\.]?` (greedy). -/
def isSepChar (c : Char) : Bool := c == '-' || c == '_' || c == '.'

def dropSep : List Char → List Char
  | c :: cs => if isSepChar c then cs else c :: cs
  | [] => []

/-- Strip a literal keyword prefix, returning the rest on success. -/
def stripLit : List Char → List Char → Option (List Char)
  | [], s => some s
  | _ :: _, [] => none
  | k :: ks, c :: cs => if k = c then stripLit ks cs else none

/-- Match one of the spelled-out qualifier keywords (as `(literal,
normalized)` pairs, longest literal first so that the scan agrees with the
backtracking regex alternation) at the head of the input. -/
def matchKw : List (String × String) → List Char → Option (String × List Char)
  | [], _ => none
  | (lit, norm) :: rest, s =>
    match stripLit lit.data s with
    | some r => some (norm, r)
    | none => matchKw rest s

/-- Pre-release spellings and their normalizations
(`packaging._parse_letter_version`). -/
def preKws : List (String × String) :=
  [("preview", "rc"), ("alpha", "a"), ("beta", "b"), ("pre", "rc"),
   ("rc", "rc"), ("a", "a"), ("b", "b"), ("c", "rc")]

def postKws : List (String × String) :=
  [("post", "post"), ("rev", "post"), ("r", "post")]

def devKws : List (String × String) := [("dev", "dev")]

/-- A qualifier group `[-_\.]? KW [-_\.]? ([0-9]+)?`: optional separator,
keyword, optional separator, optional number (default 0). Returns `none`
(nothing consumed) when the keyword is absent. -/
def parseLetterPart (kws : List (String × String)) (s : List Char) :
    Option (String × Nat × List Char) :=
  match matchKw kws (dropSep s) with
  | none => none
  | some (norm, r) =>
    let p := spanDigits (dropSep r)
    some (norm, digitsToNat p.1, p.2)

/-- The post-release group: either `-[0-9]+` or the keyword form. -/
def parsePost (s : List Char) : Option (Nat × List Char) :=
  match s with
  | '-' :: r =>
    match spanDigits r with
    | ([], _) =>
      match parseLetterPart postKws s with
      | none => none
      | some (_, n, r2) => some (n, r2)
    | (d, r2) => some (digitsToNat d, r2)
  | _ =>
    match parseLetterPart postKws s with
    | none => none
    | some (_, n, r2) => some (n, r2)

def parseDev (s : List Char) : Option (Nat × List Char) :=
  match parseLetterPart devKws s with
  | none => none
  | some (_, n, r) => some (n, r)

/-- Alphanumeric run for local version segments (input is lowercased). -/
def isLowerAlnum (c : Char) : Bool := c.isDigit || ('a' ≤ c ∧ c ≤ 'z')

/-- Scanner for the local version `[a-z0-9]+([-_\.][a-z0-9]+)*` after its
first character: `cur` is the segment being read, `acc` the completed
segments. A separator is consumed only when an alphanumeric character
follows; anything else ends the local part. Structural in the input list. -/
def locTail : List Char → List Char → List String → List String × List Char
  | c :: cs, cur, acc =>
    if isLowerAlnum c then locTail cs (cur ++ [c]) acc
    else if isSepChar c then
      match cs with
      | d :: cs2 =>
        if isLowerAlnum d then locTail cs2 [d] (acc ++ [String.mk cur])
        else (acc ++ [String.mk cur], c :: d :: cs2)
      | [] => (acc ++ [String.mk cur], [c])
    else (acc ++ [String.mk cur], c :: cs)
  | [], cur, acc => (acc ++ [String.mk cur], [])

/-- The attributes of `packaging.version.Version` that `release.py` uses. -/
structure PyVersion where
  epoch : Nat
  release : List Nat
  pre : Option (String × Nat)
  post : Option Nat
  dev : Option Nat
  localSegs : Option (List String)
deriving DecidableEq, Repr

/-- The PEP 440 parse (`Version.__init__`): strip surrounding whitespace,
lowercase, optional `v`, optional epoch `[0-9]+!`, release
`[0-9]+(\.[0-9]+)*`, optional pre/post/dev qualifiers, optional local
`+seg(.seg)*`, end of input. Returns `none` exactly where the Python
constructor raises `InvalidVersion`. -/
def parseVersionChars (s0 : List Char) : Option PyVersion :=
  let s1 := (s0.map asciiLower).dropWhile isPySpace
  let s2 := (s1.reverse.dropWhile isPySpace).reverse
  let s3 := match s2 with
    | 'v' :: r => r
    | r => r
  let eps4 : Nat × List Char :=
    match spanDigits s3 with
    | ([], _) => (0, s3)
    | (d, r) =>
      match r with
      | '!' :: r2 => (digitsToNat d, r2)
      | _ => (0, s3)
  match eps4.2 with
  | [] => none
  | c :: cs =>
    if ¬ c.isDigit then none else
    let rels5 := relTail cs (c.toNat - 48) []
    let pres6 : Option (String × Nat) × List Char :=
      match parseLetterPart preKws rels5.2 with
      | none => (none, rels5.2)
      | some (norm, n, rest) => (some (norm, n), rest)
    let posts7 : Option Nat × List Char :=
      match parsePost pres6.2 with
      | none => (none, pres6.2)
      | some (n, rest) => (some n, rest)
    let devs8 : Option Nat × List Char :=
      match parseDev posts7.2 with
      | none => (none, posts7.2)
      | some (n, rest) => (some n, rest)
    match devs8.2 with
    | [] => some ⟨eps4.1, rels5.1, pres6.1, posts7.1, devs8.1, none⟩
    | '+' :: r9 =>
      match r9 with
      | [] => none
      | c2 :: cs2 =>
        if ¬ isLowerAlnum c2 then none else
        let segs11 := locTail cs2 [c2] []
        match segs11.2 with
        | [] => some ⟨eps4.1, rels5.1, pres6.1, posts7.1, devs8.1, some segs11.1⟩
        | _ => none
    | _ => none

def parseVersion (s : String) : Option PyVersion :=
  parseVersionChars s.data

/-- `Version.is_prerelease`: true when a dev or pre component is present. -/
def isPrerelease (v : PyVersion) : Bool := v.dev.isSome || v.pre.isSome

/-- `Version.base_version`: nonzero epoch as a prefix, then the release
components joined with dots; pre/post/dev/local are all dropped. -/
def baseVersion (v : PyVersion) : String :=
  (if v.epoch ≠ 0 then toString v.epoch ++ "!" else "") ++
    String.intercalate "." (v.release.map toString)

/-- The ways `next_version` can fail: `packaging.version.InvalidVersion`
from the constructor, or the uncaught `IndexError` from `vs[1] += 1`. -/
inductive VersionError
  | invalidVersion
  | indexError
deriving DecidableEq, Repr

/-- `next_version` from `release.py`: parse the version; if it is a
prerelease, return its base version; otherwise take the release tuple,
increment component 1 (an `IndexError` when the tuple has fewer than two
components), zero every later component, join with dots and re-attach a
nonzero epoch. -/
def next_version (v : String) : Except VersionError String :=
  match parseVersion v with
  | none => .error .invalidVersion
  | some vobj =>
    if isPrerelease vobj then .ok (baseVersion vobj)
    else
      match vobj.release with
      | a :: b :: rest =>
        let vs : List Nat := a :: (b + 1) :: rest.map (fun _ => 0)
        let s := String.intercalate "." (vs.map toString)
        .ok (if vobj.epoch ≠ 0 then toString vobj.epoch ++ "!" ++ s else s)
      | _ => .error .indexError

/-- The release list after the mutation `vs[1] += 1; vs[2:] = [0] * len(vs[2:])`,
defined only in shape (two or more components); other shapes are returned
unchanged (the code raises there instead). -/
def bumpedRelease : List Nat → List Nat
  | a :: b :: rest => a :: (b + 1) :: rest.map (fun _ => 0)
  | l => l

/-! ## The release state machine (`Project` in `release.py`)

The mutable state one release run touches: the `__version__` string, the
parsed contents of the three changelog candidates (`none` = file absent),
the pieces of `README.rst` / `setup.cfg` / the GitHub repository touched by
`end_initial_dev`, and the release-record fields `assets` / `assets_asc` /
`release_upload_url`. File writes are modelled as total (the parent
directories exist, as the callers guarantee).
-/

/-- One changelog section (`ChangelogSection` in `changelog.py`). -/
structure ChangelogSection where
  version : String
  date : String
  content : String
deriving DecidableEq, Repr

/-- A parsed changelog file (`Changelog` in `changelog.py`). -/
structure Changelog where
  intro : String
  sections : List ChangelogSection
deriving DecidableEq, Repr

/-- The repostatus badge paragraph of `README.rst` as far as
`end_initial_dev` can observe it. -/
inductive RepoBadge
  | wip
  | active
  | otherBadge
deriving DecidableEq, Repr

/-- One line of `setup.cfg` as `end_initial_dev` classifies it: a possibly
commented `Development Status :: N ...` classifier line, or any other line
kept verbatim. -/
inductive CfgLine
  | devStatus (n : Nat) (commented : Bool)
  | otherLine (s : String)
deriving DecidableEq, Repr

structure ProjectState where
  version : String
  changelog_md : Option Changelog
  changelog_rst : Option Changelog
  docs_changelog : Option Changelog
  has_docs_dir : Bool
  has_docs_conf : Bool
  badge : RepoBadge
  setup_cfg : List CfgLine
  topics : List String
  license_years_updated : Bool
  docs_conf_updated : Bool
  assets : List String
  assets_asc : List String
  release_upload_url : Option String
deriving DecidableEq, Repr

/-- `Project.get_changelog`: the docs variant has the single candidate
`docs/changelog.rst`; the root variant tries `CHANGELOG.md` then
`CHANGELOG.rst`, a missing file being caught and skipped. -/
def get_changelog (docs : Bool) (st : ProjectState) : Option Changelog :=
  if docs then st.docs_changelog
  else
    match st.changelog_md with
    | some c => some c
    | none => st.changelog_rst

/-- `Project.set_changelog`: walk the candidate paths in priority order;
at the first existing candidate either unlink it (`value = none`) or
overwrite it, and stop. When no candidate exists and a document was given,
create the highest-priority candidate. -/
def set_changelog (value : Option Changelog) (docs : Bool) (st : ProjectState) :
    ProjectState :=
  if docs then
    match st.docs_changelog with
    | some _ => { st with docs_changelog := value }
    | none =>
      match value with
      | none => st
      | some _ => { st with docs_changelog := value }
  else
    match st.changelog_md with
    | some _ => { st with changelog_md := value }
    | none =>
      match st.changelog_rst with
      | some _ => { st with changelog_rst := value }
      | none =>
        match value with
        | none => st
        | some _ => { st with changelog_md := value }

theorem spanDigits_append : ∀ l : List Char, (spanDigits l).1 ++ (spanDigits l).2 = l := by
  intro l
  induction l with
  | nil => simp [spanDigits]
  | cons c cs ih =>
    by_cases h : c.isDigit <;> simp [spanDigits, h, ih]

/-- Consume `\d+`: at least one digit, returning the rest. -/
def nonEmptyDigits (r : List Char) : Option (List Char) :=
  match spanDigits r with
  | ([], _) => none
  | (_ :: _, rest) => some rest

/-- One match attempt of the pattern `(a|b|rc)\d+|\.dev\d+` used by
`end_dev` to strip prerelease and dev qualifiers from `__version__`
(alternatives in the regex's order, `\d+` greedy). -/
def matchQual : List Char → Option (List Char)
  | [] => none
  | c :: r =>
    if c = 'a' ∨ c = 'b' then nonEmptyDigits r
    else if c = 'r' then
      match r with
      | c2 :: r2 => if c2 = 'c' then nonEmptyDigits r2 else none
      | [] => none
    else if c = '.' then
      match r with
      | c2 :: c3 :: c4 :: r2 =>
        if c2 = 'd' ∧ c3 = 'e' ∧ c4 = 'v' then nonEmptyDigits r2 else none
      | _ => none
    else none

/-- The `re.sub` scan, leftmost match first, on explicit fuel (structural
recursion so that the kernel can evaluate it; `subQualF_fuel` shows any
fuel of at least the input length gives the same answer). -/
def subQualF : Nat → List Char → List Char
  | 0, l => l
  | _ + 1, [] => []
  | fuel + 1, c :: cs =>
    match matchQual (c :: cs) with
    | some rest => subQualF fuel rest
    | none => c :: subQualF fuel cs

/-- `re.sub(r'(a|b|rc)\d+|\.dev\d+', '', v)` over the characters of `v`. -/
def subQual (l : List Char) : List Char := subQualF l.length l

theorem nonEmptyDigits_length {r rest : List Char} (h : nonEmptyDigits r = some rest) :
    rest.length + 1 ≤ r.length := by
  unfold nonEmptyDigits at h
  match hs : spanDigits r with
  | ([], r2) => rw [hs] at h; simp at h
  | (d :: ds, r2) =>
    rw [hs] at h
    simp at h
    subst h
    have happ := spanDigits_append r
    rw [hs] at happ
    have hlen := congrArg List.length happ
    simp at hlen
    omega

theorem matchQual_length : ∀ {s rest : List Char}, matchQual s = some rest →
    rest.length + 2 ≤ s.length := by
  intro s rest h
  match s with
  | [] => simp [matchQual] at h
  | c :: r =>
    simp only [matchQual] at h
    split at h
    · have := nonEmptyDigits_length h
      simp
      omega
    · split at h
      · match r with
        | [] => simp at h
        | c2 :: r2 =>
          simp at h
          have := nonEmptyDigits_length h.2
          simp at this ⊢
          omega
      · split at h
        · match r with
          | [] => simp at h
          | [c2] => simp at h
          | [c2, c3] => simp at h
          | c2 :: c3 :: c4 :: r2 =>
            simp at h
            have := nonEmptyDigits_length h.2
            simp at this ⊢
            omega
        · simp at h

theorem subQualF_fuel : ∀ (f1 : Nat) (l : List Char) (f2 : Nat),
    l.length ≤ f1 → l.length ≤ f2 → subQualF f1 l = subQualF f2 l := by
  intro f1
  induction f1 with
  | zero =>
    intro l f2 h1 _
    have : l = [] := List.length_eq_zero.mp (Nat.le_zero.mp h1)
    subst this
    cases f2 <;> rfl
  | succ f ih =>
    intro l f2 h1 h2
    match l with
    | [] => cases f2 <;> rfl
    | c :: cs =>
      match f2 with
      | 0 => simp at h2
      | f2' + 1 =>
        show subQualF (f + 1) (c :: cs) = subQualF (f2' + 1) (c :: cs)
        simp only [subQualF]
        match hm : matchQual (c :: cs) with
        | some rest =>
          have hlen := matchQual_length hm
          simp at hlen h1 h2
          exact ih rest f2' (by omega) (by omega)
        | none =>
          simp at h1 h2
          rw [ih cs f2' (by omega) (by omega)]

/-- The changelog-date pass of `end_dev` for one variant: when the
changelog exists and has sections, stamp the most recent section with the
current date and save. -/
def setReleaseDate (todayStr : String) (docs : Bool) (st : ProjectState) : ProjectState :=
  match get_changelog docs st with
  | some c =>
    match c.sections with
    | [] => st
    | s0 :: rest =>
      set_changelog (some { c with sections := { s0 with date := todayStr } :: rest }) docs st
  | none => st

/-- `Project.update_gh_topics`: read the topic set, take the union with
`add` and then the difference with `remove`, and PUT the result when it
changed (the resulting topics are the same either way). -/
def update_gh_topics (add remove ts : List String) : List String :=
  (ts ++ add.filter (fun a => a ∉ ts)).filter (fun t => t ∉ remove)

/-- `README.rst` rewrite of `end_initial_dev`: the work-in-progress badge
paragraph is replaced by the active badge, everything else is kept. -/
def advanceBadge : RepoBadge → RepoBadge
  | .wip => .active
  | b => b

/-- `setup.cfg` rewrite of `end_initial_dev`: classifier lines with status
1-3 are dropped; the first status 4-7 classifier line has its first `#`
removed; later lines are kept verbatim. -/
def advanceClassifierAux : Bool → List CfgLine → List CfgLine
  | _, [] => []
  | matched, line :: rest =>
    match line with
    | .devStatus n c =>
      if n = 1 ∨ n = 2 ∨ n = 3 then advanceClassifierAux matched rest
      else if (n = 4 ∨ n = 5 ∨ n = 6 ∨ n = 7) ∧ ¬ matched then
        .devStatus n false :: advanceClassifierAux true rest
      else .devStatus n c :: advanceClassifierAux matched rest
    | .otherLine s => .otherLine s :: advanceClassifierAux matched rest

def advanceClassifier (lines : List CfgLine) : List CfgLine :=
  advanceClassifierAux false lines

/-- `Project.end_initial_dev`: advance the repostatus badge, advance the
Development Status classifier, and update the GitHub topics. -/
def end_initial_dev (st : ProjectState) : ProjectState :=
  { st with
    badge := advanceBadge st.badge,
    setup_cfg := advanceClassifier st.setup_cfg,
    topics := update_gh_topics ["available-on-pypi"] ["work-in-progress"] st.topics }

/-- `Project.end_dev`: strip prerelease/dev qualifiers from `__version__`
(persisting via the version setter); stamp the release date into both
changelog variants where present; refresh the LICENSE year range and, when
`docs/conf.py` exists, its copyright line; and when no root changelog
exists, run the initial-release sub-flow. -/
def end_dev (todayStr : String) (st : ProjectState) : ProjectState :=
  let st1 := { st with version := String.mk (subQual st.version.data) }
  let st2 := setReleaseDate todayStr false st1
  let st3 := setReleaseDate todayStr true st2
  let st4 := { st3 with license_years_updated := true }
  let st5 := if st4.has_docs_conf then { st4 with docs_conf_updated := true } else st4
  if get_changelog false st5 = none then end_initial_dev st5 else st5

/-- One changelog pass of `begin_dev`: insert the new in-development
section at the top; when the variant has no changelog (or an empty one),
synthesize a fresh one whose prior entry is an "Initial release" section
for the old version dated today. -/
def beginDevPass (newSect : ChangelogSection) (oldVersion todayStr : String)
    (docs : Bool) (st : ProjectState) : ProjectState :=
  let fallback : Changelog :=
    { intro := if docs then "Changelog\n=========\n\n" else "",
      sections := [newSect,
        { version := "v" ++ oldVersion, date := todayStr, content := "Initial release" }] }
  let chlog :=
    match get_changelog docs st with
    | some c =>
      if c.sections.isEmpty then fallback
      else { c with sections := newSect :: c.sections }
    | none => fallback
  set_changelog (some chlog) docs st

/-- `Project.begin_dev`: set `__version__` to `next_version` plus `.dev1`
(propagating `next_version`'s failures), then add the new section to the
root changelog and, when the docs directory exists, to the docs one. -/
def begin_dev (todayStr : String) (st : ProjectState) : Except VersionError ProjectState :=
  match next_version st.version with
  | .error e => .error e
  | .ok newVersion =>
    let oldVersion := st.version
    let st1 := { st with version := newVersion ++ ".dev1" }
    let newSect : ChangelogSection :=
      { version := "v" ++ newVersion, date := "in development", content := "" }
    let st2 := beginDevPass newSect oldVersion todayStr false st1
    let st3 :=
      if st2.has_docs_dir then beginDevPass newSect oldVersion todayStr true st2 else st2
    .ok st3

/-- The collection loop of `Project.build` over the files found in the
wiped-and-rebuilt dist directory: record each file and, when signing, the
detached-signature path next to it. -/
def buildLoop (sign_assets : Bool) : List String → List String × List String
  | [] => ([], [])
  | f :: fs =>
    let p := buildLoop sign_assets fs
    (f :: p.1, if sign_assets then (f ++ ".asc") :: p.2 else p.2)

/-- `Project.build`: the dist directory is wiped, `assets`/`assets_asc`
reset, the build tool run (its output is the `distFiles` parameter), and
the produced files collected. -/
def build (sign_assets : Bool) (distFiles : List String) (st : ProjectState) :
    ProjectState :=
  let p := buildLoop sign_assets distFiles
  { st with assets := p.1, assets_asc := p.2 }

/-- The spec's claimed invariant over the release-record asset fields, in
its corrected form: signatures are absent or exactly one per asset. -/
def assetsInvariant (st : ProjectState) : Prop :=
  st.assets_asc = [] ∨ st.assets_asc.length = st.assets.length

/-- A concrete project directory with no changelog, used by witnesses. -/
def emptyProject : ProjectState :=
  { version := "0.5.0.dev1", changelog_md := none, changelog_rst := none,
    docs_changelog := none, has_docs_dir := false, has_docs_conf := false,
    badge := .wip, setup_cfg := [.devStatus 3 false, .devStatus 4 true],
    topics := ["python", "work-in-progress"], license_years_updated := false,
    docs_conf_updated := false, assets := [], assets_asc := [],
    release_upload_url := none }

/-! ## The `cli` phase sequence of the release command -/

inductive Phase
  | finalizeVersion
  | testRun
  | buildPhase
  | verify
  | commitTag
  | publishRelease
  | uploadAssets
  | beginNextDev
deriving DecidableEq, Repr

/-- The statements of the `cli` body in source order: `end_dev`;
`tox_check` when the tox option is on; `build`; `twine_check`;
`commit_version`; `mkghrelease`; `upload`; `begin_dev`. -/
def phaseOrder (tox : Bool) : List Phase :=
  [.finalizeVersion] ++ (if tox then [.testRun] else []) ++
    [.buildPhase, .verify, .commitTag, .publishRelease, .uploadAssets, .beginNextDev]

/-- One statement of the `cli` body: started only while no earlier
statement has raised; `ok p` says whether phase `p` completes without a
fatal error. The accumulator holds the phases started so far and whether
execution is still alive. -/
def attemptPhase (ok : Phase → Bool) (acc : List Phase × Bool) (p : Phase) :
    List Phase × Bool :=
  if acc.2 then (acc.1 ++ [p], ok p) else acc

/-- The `cli` body as its literal statement sequence: an exception in any
phase aborts every later statement. Returns the trace of started phases
and whether the whole run completed. -/
def cliSeq (tox : Bool) (ok : Phase → Bool) : List Phase × Bool :=
  let s1 := attemptPhase ok ([], true) .finalizeVersion
  let s2 := if tox then attemptPhase ok s1 .testRun else s1
  let s3 := attemptPhase ok s2 .buildPhase
  let s4 := attemptPhase ok s3 .verify
  let s5 := attemptPhase ok s4 .commitTag
  let s6 := attemptPhase ok s5 .publishRelease
  let s7 := attemptPhase ok s6 .uploadAssets
  attemptPhase ok s7 .beginNextDev

/-- The phases a straight-line exception-propagating sequence starts: the
successful prefix plus the first failing phase. -/
def runPhases (ok : Phase → Bool) : List Phase → List Phase
  | [] => []
  | p :: rest => if ok p then p :: runPhases ok rest else [p]

/-! ## The GitHub client (`gh.py`) -/

/-- An HTTP response as `GitHub.__call__` observes it: the status code,
whether the `Link` header carries a `rel="next"` relation, and the decoded
JSON body. -/
structure HResp (α : Type) where
  status : Nat
  hasNext : Bool
  body : α
deriving DecidableEq, Repr

/-- `requests.Response.ok`: the status signals no 4xx/5xx error. -/
def respOk {α : Type} (r : HResp α) : Bool := r.status < 400

/-- What `GitHub.__call__` can produce: the raw response object, the
`ValueError` on the base instance, the structured `GitHubException`, the
hand-off to the lazy `paginate` generator, `None` for 204, or the decoded
JSON body. -/
inductive CallResult (α : Type)
  | raw (r : HResp α)
  | errValueError
  | errGitHub (r : HResp α)
  | paginated (r : HResp α)
  | noContent
  | json (b : α)
deriving DecidableEq, Repr

/-- ASCII `str.lower`. -/
def lowerStr (s : String) : String := String.mk (s.data.map asciiLower)

/-- `GitHub.__call__` on a dispatched request whose response is `r`:
refuse the base instance, return the response unchanged when `raw`,
raise on a non-ok status, paginate ok GET responses with a next link,
map 204 to `None`, and otherwise decode the body. -/
def callGH {α : Type} (method : Option String) (raw : Bool) (r : HResp α) :
    CallResult α :=
  match method with
  | none => .errValueError
  | some m =>
    if raw then .raw r
    else if ¬ respOk r then .errGitHub r
    else if lowerStr m = "get" ∧ r.hasNext then .paginated r
    else if r.status = 204 then .noContent
    else .json r.body

/-- One page of a paginated response as the `paginate` loop observes it:
`r.ok` and the JSON array body. A finite chain of linked pages is a list
of these; page `i` carries a `rel="next"` link exactly when page `i + 1`
exists in the chain. -/
structure Page (α : Type) where
  ok : Bool
  elems : List α
deriving DecidableEq, Repr

/-- The outcome of pulling elements from the `paginate` generator: the
elements yielded so far and the number of HTTP requests issued (counting
the one that produced the first response); `err` marks a raised
`GitHubException` from a non-ok page. -/
inductive TakeResult (α : Type)
  | ok (elems : List α) (requests : Nat)
  | err (elems : List α) (requests : Nat)
deriving DecidableEq, Repr

/-- Prefix the elements of an earlier page and account for one more
request (the `session.get` of the next page). -/
def prependTR {α : Type} (es : List α) : TakeResult α → TakeResult α
  | .ok l n => .ok (es ++ l) (n + 1)
  | .err l n => .err (es ++ l) (n + 1)

/-- The `paginate` generator consumed for at most `k` elements against a
finite chain of linked pages. The loop body checks `r.ok` (raising on a
non-ok page), yields the page's elements one by one, and fetches the next
page only when the consumer demands an element beyond the current page;
demanding nothing runs nothing. -/
def paginateTake {α : Type} : List (Page α) → Nat → TakeResult α
  | [], _ => .ok [] 0
  | _ :: _, 0 => .ok [] 1
  | p :: rest, k + 1 =>
    if p.ok then
      if k + 1 ≤ p.elems.length then .ok (p.elems.take (k + 1)) 1
      else
        match rest with
        | [] => .ok p.elems 1
        | q :: qrest =>
          prependTR p.elems (paginateTake (q :: qrest) (k + 1 - p.elems.length))
    else .err [] 1

/-- The spec's pagination scenario: three linked pages of two elements
each. -/
def threePages : List (Page Nat) := [⟨true, [1, 2]⟩, ⟨true, [3, 4]⟩, ⟨true, [5, 6]⟩]

/-! ## MIME type resolution (`mime_type` in `release.py`)

`mime_type` delegates to `mimetypes.guess_type(filename, strict=False)`
after the release command has registered `.whl` as `application/zip` with
`add_type(..., strict=False)`. The definitions below embed
`posixpath.splitext` and the `guess_type` algorithm (suffix-map loop,
encodings map, then the case-sensitive/lowercase lookups in the strict and
non-strict type tables). The tables carry the standard entries the release
assets can meet; the claims' "unrecognized extension" case is stated as
absence from every table. URL-scheme stripping (`data:` handling) is not
modelled: release-asset names contain no colon. -/

/-- Split a character list at the last occurrence of `c`: the part before
and the part after, or `none` when `c` does not occur. -/
def breakLast (c : Char) (l : List Char) : Option (List Char × List Char) :=
  let r := l.reverse
  let after := r.takeWhile (fun x => x != c)
  match r.dropWhile (fun x => x != c) with
  | [] => none
  | _ :: before => some (before.reverse, after.reverse)

/-- `posixpath.splitext`: split off the extension at the last dot of the
basename, unless every character of the basename before that dot is a dot
(leading dots do not start an extension). -/
def splitextList (l : List Char) : List Char × List Char :=
  let db : List Char × List Char :=
    match breakLast '/' l with
    | none => ([], l)
    | some (d, b) => (d ++ ['/'], b)
  match breakLast '.' db.2 with
  | none => (l, [])
  | some (pre, ext) =>
    if pre.any (fun x => x != '.') then (db.1 ++ pre, '.' :: ext) else (l, [])

def splitext (s : String) : String × String :=
  let p := splitextList s.data
  (String.mk p.1, String.mk p.2)

/-- `types_map` lookup over an association list. -/
def lookupStr (key : String) (m : List (String × String)) : Option String :=
  match m.find? (fun kv => kv.1 == key) with
  | some kv => some kv.2
  | none => none

/-- `mimetypes.suffix_map`. -/
def suffixMap : List (String × String) :=
  [(".svgz", ".svg.gz"), (".tgz", ".tar.gz"), (".taz", ".tar.gz"),
   (".tz", ".tar.gz"), (".tbz2", ".tar.bz2"), (".txz", ".tar.xz")]

/-- `mimetypes.encodings_map` — consulted case-sensitively. -/
def encodingsMap : List (String × String) :=
  [(".gz", "gzip"), (".Z", "compress"), (".bz2", "bzip2"), (".xz", "xz"),
   (".br", "br")]

/-- The strict type table entries a release asset can meet. -/
def typesMapStrict : List (String × String) :=
  [(".tar", "application/x-tar"), (".zip", "application/zip"),
   (".txt", "text/plain")]

/-- The non-strict additions: the `.whl` registration the release command
performs before resolving any type. -/
def typesMapNonStrict : List (String × String) :=
  [(".whl", "application/zip")]

/-- The `while ext.lower() in suffix_map` loop. Every mapped replacement
ends in `.gz`, `.bz2` or `.xz`, none of which is itself a suffix-map key,
so the loop runs at most once; fuel 4 is more than enough. -/
def applySuffixLoop : Nat → List Char × List Char → List Char × List Char
  | 0, be => be
  | fuel + 1, (base, ext) =>
    match lookupStr (lowerStr (String.mk ext)) suffixMap with
    | none => (base, ext)
    | some rep => applySuffixLoop fuel (splitextList (base ++ rep.data))

/-- The final table consultation of `guess_type(strict=False)`: after
`ext = ext.lower()`, the strict table, then the non-strict additions. -/
def finishLookup (extLower : String) (encoding : Option String) :
    Option String × Option String :=
  match lookupStr extLower typesMapStrict with
  | some t => (some t, encoding)
  | none =>
    match lookupStr extLower typesMapNonStrict with
    | some t => (some t, encoding)
    | none => (none, encoding)

/-- `mimetypes.guess_type(filename, strict=False)` with the `.whl`
registration in place: the suffix-map loop (keyed by the lowercased
extension), the case-sensitive encodings-map check which strips one more
extension, then the type-table lookups on the lowercased extension. -/
def guess_type (filename : String) : Option String × Option String :=
  let be := applySuffixLoop 4 (splitextList filename.data)
  match lookupStr (String.mk be.2) encodingsMap with
  | some enc =>
    finishLookup (lowerStr (String.mk (splitextList be.1).2)) (some enc)
  | none => finishLookup (lowerStr (String.mk be.2)) none

/-- `mime_type` from `release.py`: compressed files resolve to their
compression's MIME type (`gzip` to `application/gzip` by RFC 6713, any
other encoding to `application/x-` plus the encoding name); otherwise the
guessed type, defaulting to `application/octet-stream`. -/
def mime_type (filename : String) : String :=
  match guess_type filename with
  | (mtype, none) =>
    match mtype with
    | some t => t
    | none => "application/octet-stream"
  | (_, some enc) =>
    if enc = "gzip" then "application/gzip" else "application/x-" ++ enc

/-! ## The label step of the repository bootstrap flow (`mkgithub.py`) -/

/-- One label-creation request body. -/
structure LabelReq where
  name : String
  color : String
  description : String
deriving DecidableEq, Repr

def dependenciesLabel : LabelReq :=
  { name := "dependencies", color := "8732bc",
    description := "Update one or more dependencies\x27 versions" }

def actionsLabel : LabelReq :=
  { name := "d:github-actions", color := "74fa75",
    description := "Update a GitHub Actions action dependency" }

/-- The label step of the `mkgithub` flow: when `.github/dependabot.yml`
exists, POST the two label definitions in order, unconditionally — there
is no existence check and no exception handling, so a failing POST (a
non-2xx response raising `GitHubException`) aborts before the next
statement. Returns the POSTs issued and whether the step completed. -/
def labelStep (dependabotExists : Bool) (postOk : LabelReq → Bool) :
    List LabelReq × Bool :=
  if dependabotExists then
    if postOk dependenciesLabel then
      (if postOk actionsLabel then ([dependenciesLabel, actionsLabel], true)
       else ([dependenciesLabel, actionsLabel], false))
    else ([dependenciesLabel], false)
  else ([], true)

/-- The hosting platform's documented response to label creation: a POST
whose label name already exists on the repository fails with
422 Validation Failed (non-2xx, hence `GitHubException` in the client);
otherwise the label is created. This models the remote collaborator the
claim's "label already present" scenario quantifies over; the client-side
code is `labelStep` above. -/
def githubLabelPost (existing : List String) (req : LabelReq) : Bool :=
  req.name ∉ existing

end PyRepo

namespace PyRepo

/-! ## Theorems

Nine checks reproducing the doctest of `next_version` verbatim, then one
theorem (with witness or counterexample where required) per claim.
-/

example : next_version "0.5.0" = .ok "0.6.0" := by decide
example : next_version "0.5.1" = .ok "0.6.0" := by decide
example : next_version "0.5.0.post1" = .ok "0.6.0" := by decide
example : next_version "0.5.1.post1" = .ok "0.6.0" := by decide
example : next_version "0.5.0a1" = .ok "0.5.0" := by decide
example : next_version "0.5.1a1" = .ok "0.5.1" := by decide
example : next_version "0.5.0.dev1" = .ok "0.5.0" := by decide
example : next_version "0.5.1.dev1" = .ok "0.5.1" := by decide
example : next_version "1!0.5.0" = .ok "1!0.6.0" := by decide

/-- C2 (amended): for every valid version string with a prerelease or dev
component, `next_version` returns exactly the parsed version's base release
version; for every other valid version string whose release has at least two
components, it returns the release with the minor component incremented and
every later release component zeroed, prefixed by `epoch!` when the parsed
epoch is nonzero (post/local segments are discarded). The spec's four
examples hold. (The original claim's universal second branch fails on valid
single-component versions, see the counterexample.) -/
theorem claim_C2 :
    (∀ (s : String) (v : PyVersion), parseVersion s = some v →
      (isPrerelease v = true → next_version s = .ok (baseVersion v)) ∧
      (isPrerelease v = false → 2 ≤ v.release.length →
        next_version s = .ok
          (if v.epoch ≠ 0 then
            toString v.epoch ++ "!" ++
              String.intercalate "." ((bumpedRelease v.release).map toString)
          else String.intercalate "." ((bumpedRelease v.release).map toString)))) ∧
    next_version "0.5.0" = .ok "0.6.0" ∧
    next_version "0.5.1" = .ok "0.6.0" ∧
    next_version "0.5.0a1" = .ok "0.5.0" ∧
    next_version "1!0.5.0" = .ok "1!0.6.0" := by
  refine ⟨?_, by decide, by decide, by decide, by decide⟩
  intro s v h
  constructor
  · intro hp
    simp [next_version, h, hp]
  · intro hp hlen
    obtain ⟨a, b, rest, hrel⟩ : ∃ a b rest, v.release = a :: b :: rest := by
      match hr : v.release with
      | [] => rw [hr] at hlen; simp at hlen
      | [a] => rw [hr] at hlen; simp at hlen
      | a :: b :: rest => exact ⟨a, b, rest, rfl⟩
    simp [next_version, h, hp, hrel, bumpedRelease]

/-- C2 counterexample: `"7"` is a valid version (the PEP 440 release may
have a single component) with no prerelease/dev component, yet
`next_version` does not return any version string for it: the mutation
`vs[1] += 1` raises an uncaught `IndexError`. -/
theorem claim_C2_counterexample :
    parseVersion "7" = some ⟨0, [7], none, none, none, none⟩ ∧
    next_version "7" = .error VersionError.indexError := by decide

/-- Witness for C2: the theorem applied at a dev version and at a plain
release version. -/
theorem claim_C2_witness :
    next_version "2!3.4.5.dev2" = .ok "2!3.4.5" ∧
    next_version "9.8.7" = .ok "9.9.0" := by
  constructor
  · exact ((claim_C2.1 "2!3.4.5.dev2" ⟨2, [3, 4, 5], none, none, some 2, none⟩
      (by decide)).1 (by decide)).trans (by decide)
  · exact ((claim_C2.1 "9.8.7" ⟨0, [9, 8, 7], none, none, none, none⟩
      (by decide)).2 (by decide) (by decide)).trans (by decide)

/-- C3 (amended): `next_version` rejects every invalid version string with
`InvalidVersion` and only with `InvalidVersion`; over valid version strings
it is total only on those that are prereleases or have at least two release
components — on a valid non-prerelease version with a single release
component it raises an uncaught `IndexError` instead of returning. -/
theorem claim_C3 :
    (∀ s : String, parseVersion s = none →
      next_version s = .error VersionError.invalidVersion) ∧
    (∀ (s : String) (v : PyVersion), parseVersion s = some v →
      next_version s ≠ .error VersionError.invalidVersion ∧
      (isPrerelease v = true ∨ 2 ≤ v.release.length →
        ∃ out, next_version s = .ok out) ∧
      (isPrerelease v = false → v.release.length < 2 →
        next_version s = .error VersionError.indexError)) := by
  constructor
  · intro s h
    simp [next_version, h]
  · intro s v h
    refine ⟨?_, ?_, ?_⟩
    · cases hp : isPrerelease v with
      | true => simp [next_version, h, hp]
      | false =>
        match hr : v.release with
        | [] => simp [next_version, h, hp, hr]
        | [a] => simp [next_version, h, hp, hr]
        | a :: b :: rest => simp [next_version, h, hp, hr]
    · rintro (hp | hlen)
      · exact ⟨baseVersion v, by simp [next_version, h, hp]⟩
      · cases hp : isPrerelease v with
        | true => exact ⟨baseVersion v, by simp [next_version, h, hp]⟩
        | false =>
          obtain ⟨a, b, rest, hrel⟩ : ∃ a b rest, v.release = a :: b :: rest := by
            match hr : v.release with
            | [] => rw [hr] at hlen; simp at hlen
            | [a] => rw [hr] at hlen; simp at hlen
            | a :: b :: rest => exact ⟨a, b, rest, rfl⟩
          exact ⟨if v.epoch ≠ 0 then
              toString v.epoch ++ "!" ++
                String.intercalate "." ((a :: (b + 1) :: rest.map (fun _ => 0)).map toString)
            else String.intercalate "." ((a :: (b + 1) :: rest.map (fun _ => 0)).map toString),
            by simp [next_version, h, hp, hrel]⟩
    · intro hp hlen
      match hr : v.release with
      | [] => simp [next_version, h, hp, hr]
      | [a] => simp [next_version, h, hp, hr]
      | a :: b :: rest => rw [hr] at hlen; simp at hlen; omega

/-- C3 counterexample: `"1"` is a valid version string, yet `next_version`
fails on it, and with an `IndexError`, not an `InvalidVersion` error. -/
theorem claim_C3_counterexample :
    parseVersion "1" = some ⟨0, [1], none, none, none, none⟩ ∧
    next_version "1" = .error VersionError.indexError := by decide

/-- Witness for C3: the invalid-input branch at a concrete invalid string. -/
theorem claim_C3_witness :
    next_version "not a version" = .error VersionError.invalidVersion :=
  claim_C3.1 "not a version" (by decide)

theorem foldl_attempt_dead (ok : Phase → Bool) :
    ∀ (l : List Phase) (acc : List Phase),
      l.foldl (attemptPhase ok) (acc, false) = (acc, false) := by
  intro l
  induction l with
  | nil => intro acc; rfl
  | cons p rest ih => intro acc; simpa [attemptPhase] using ih acc

theorem foldl_attempt_live (ok : Phase → Bool) :
    ∀ (l : List Phase) (acc : List Phase),
      l.foldl (attemptPhase ok) (acc, true) = (acc ++ runPhases ok l, l.all ok) := by
  intro l
  induction l with
  | nil => intro acc; simp [runPhases]
  | cons p rest ih =>
    intro acc
    cases hok : ok p with
    | true =>
      simp [attemptPhase, hok, ih, runPhases]
    | false =>
      simp [attemptPhase, hok, runPhases, foldl_attempt_dead]

theorem cliSeq_eq_foldl (tox : Bool) (ok : Phase → Bool) :
    cliSeq tox ok = (phaseOrder tox).foldl (attemptPhase ok) ([], true) := by
  cases tox <;> rfl

theorem cliSeq_spec (tox : Bool) (ok : Phase → Bool) :
    cliSeq tox ok = (runPhases ok (phaseOrder tox), (phaseOrder tox).all ok) := by
  rw [cliSeq_eq_foldl]
  simpa using foldl_attempt_live ok (phaseOrder tox) []

theorem runPhases_exists_suffix (ok : Phase → Bool) :
    ∀ l : List Phase, ∃ t, runPhases ok l ++ t = l := by
  intro l
  induction l with
  | nil => exact ⟨[], rfl⟩
  | cons p rest ih =>
    cases hok : ok p with
    | true =>
      obtain ⟨t, ht⟩ := ih
      exact ⟨t, by simp [runPhases, hok, ht]⟩
    | false => exact ⟨rest, by simp [runPhases, hok]⟩

theorem runPhases_get_mem_iff (ok : Phase → Bool) :
    ∀ (l : List Phase), l.Nodup → ∀ (j : Nat) (hj : j < l.length),
      (l.get ⟨j, hj⟩ ∈ runPhases ok l ↔
        ∀ (i : Nat) (hi : i < j), ok (l.get ⟨i, Nat.lt_trans hi hj⟩) = true) := by
  intro l
  induction l with
  | nil => intro _ j hj; simp at hj
  | cons p rest ih =>
    intro hnd j hj
    have hpnotin : p ∉ rest := (List.nodup_cons.mp hnd).1
    have hndr : rest.Nodup := (List.nodup_cons.mp hnd).2
    match j with
    | 0 =>
      constructor
      · intro _ i hi; omega
      · intro _
        show p ∈ runPhases ok (p :: rest)
        cases hok : ok p <;> simp [runPhases, hok]
    | jj + 1 =>
      have hj' : jj < rest.length := by simpa using hj
      have hmem : rest.get ⟨jj, hj'⟩ ∈ rest := List.get_mem rest jj hj'
      have hne : rest.get ⟨jj, hj'⟩ ≠ p := fun he => hpnotin (he ▸ hmem)
      show rest.get ⟨jj, hj'⟩ ∈ runPhases ok (p :: rest) ↔ _
      cases hok : ok p with
      | true =>
        rw [show runPhases ok (p :: rest) = p :: runPhases ok rest from by
          simp [runPhases, hok]]
        simp only [List.mem_cons]
        rw [show (rest.get ⟨jj, hj'⟩ = p ∨ rest.get ⟨jj, hj'⟩ ∈ runPhases ok rest) ↔
              rest.get ⟨jj, hj'⟩ ∈ runPhases ok rest from
          or_iff_right hne]
        rw [ih hndr jj hj']
        constructor
        · intro hin i hi
          match i with
          | 0 => exact hok
          | ii + 1 => exact hin ii (by omega)
        · intro hall i hi
          exact hall (i + 1) (by omega)
      | false =>
        rw [show runPhases ok (p :: rest) = [p] from by simp [runPhases, hok]]
        simp only [List.mem_singleton]
        constructor
        · intro he; exact (hne he).elim
        · intro hall
          have h0 := hall 0 (by omega)
          rw [show ok ((p :: rest).get ⟨0, by omega⟩) = ok p from rfl] at h0
          rw [hok] at h0
          exact absurd h0 (by simp)

/-- C1: the release command's phases run in the fixed source order
finalize-version, optional test run, build, verify, commit and tag,
publish release record, upload artifacts, begin next development cycle:
the trace of started phases is a prefix of that order, a phase is started
exactly when every preceding phase completed without fatal error, and the
run completes exactly when every phase succeeds. -/
theorem claim_C1 (tox : Bool) (ok : Phase → Bool) :
    (∃ t, (cliSeq tox ok).1 ++ t = phaseOrder tox) ∧
    (∀ (j : Nat) (hj : j < (phaseOrder tox).length),
      ((phaseOrder tox).get ⟨j, hj⟩ ∈ (cliSeq tox ok).1 ↔
        ∀ (i : Nat) (hi : i < j),
          ok ((phaseOrder tox).get ⟨i, Nat.lt_trans hi hj⟩) = true)) ∧
    ((cliSeq tox ok).2 = true ↔ (phaseOrder tox).all ok = true) := by
  have hc := cliSeq_spec tox ok
  have hnd : (phaseOrder tox).Nodup := by cases tox <;> decide
  refine ⟨?_, ?_, ?_⟩
  · rw [hc]
    exact runPhases_exists_suffix ok (phaseOrder tox)
  · intro j hj
    rw [hc]
    exact runPhases_get_mem_iff ok (phaseOrder tox) hnd j hj
  · rw [hc]

/-- Witness for C1: with the tox option off and every phase succeeding,
the commit-and-tag phase (position 3 of the order) is started. -/
theorem claim_C1_witness :
    (phaseOrder false).get ⟨3, by decide⟩ ∈ (cliSeq false (fun _ => true)).1 :=
  ((claim_C1 false (fun _ => true)).2.1 3 (by decide)).mpr (fun _ _ => rfl)

theorem mem_update_topics {x : String} {add remove ts : List String} :
    x ∈ update_gh_topics add remove ts ↔ (x ∈ ts ∨ x ∈ add) ∧ x ∉ remove := by
  simp only [update_gh_topics, List.mem_filter, List.mem_append,
    decide_eq_true_eq]
  tauto

/-- C4: finalize-version (`end_dev`) on a project with no changelog file
leaves all three changelog candidates absent and runs the initial-release
sub-flow (badge advanced, Development Status classifier advanced,
`available-on-pypi` added to and `work-in-progress` removed from the
topics); the section dated today and labeled "Initial release" appears
only through the subsequent `begin_dev`, which synthesizes the fresh root
changelog containing it. -/
theorem claim_C4 (st : ProjectState) (todayStr nv : String)
    (h1 : st.changelog_md = none) (h2 : st.changelog_rst = none)
    (h3 : st.docs_changelog = none)
    (hnv : next_version (String.mk (subQual st.version.data)) = .ok nv) :
    (end_dev todayStr st).changelog_md = none ∧
    (end_dev todayStr st).changelog_rst = none ∧
    (end_dev todayStr st).docs_changelog = none ∧
    (end_dev todayStr st).badge = advanceBadge st.badge ∧
    (end_dev todayStr st).setup_cfg = advanceClassifier st.setup_cfg ∧
    "available-on-pypi" ∈ (end_dev todayStr st).topics ∧
    "work-in-progress" ∉ (end_dev todayStr st).topics ∧
    (begin_dev todayStr (end_dev todayStr st)).map (fun s => s.changelog_md) =
      .ok (some { intro := "", sections := [
        { version := "v" ++ nv, date := "in development", content := "" },
        { version := "v" ++ String.mk (subQual st.version.data),
          date := todayStr, content := "Initial release" }] }) := by
  have hset : end_dev todayStr st = end_initial_dev
      { st with version := String.mk (subQual st.version.data),
                license_years_updated := true,
                docs_conf_updated := st.has_docs_conf || st.docs_conf_updated } := by
    by_cases hconf : st.has_docs_conf <;>
      simp [end_dev, setReleaseDate, get_changelog, h1, h2, h3, hconf]
  rw [hset]
  refine ⟨by simp [end_initial_dev, h1], by simp [end_initial_dev, h2],
    by simp [end_initial_dev, h3], rfl, rfl, ?_, ?_, ?_⟩
  · simp only [end_initial_dev]
    rw [mem_update_topics]
    simp
  · simp only [end_initial_dev]
    rw [mem_update_topics]
    simp
  · by_cases hdd : st.has_docs_dir <;>
      simp [begin_dev, end_initial_dev, hnv, beginDevPass, get_changelog,
        set_changelog, h1, h2, h3, hdd, Except.map]

/-- Witness for C4: the scenario run on a concrete changelog-less project. -/
theorem claim_C4_witness :
    (end_dev "2026-10-12" emptyProject).changelog_md = none ∧
    (end_dev "2026-10-12" emptyProject).changelog_rst = none ∧
    (end_dev "2026-10-12" emptyProject).docs_changelog = none ∧
    (end_dev "2026-10-12" emptyProject).badge = advanceBadge emptyProject.badge ∧
    (end_dev "2026-10-12" emptyProject).setup_cfg = advanceClassifier emptyProject.setup_cfg ∧
    "available-on-pypi" ∈ (end_dev "2026-10-12" emptyProject).topics ∧
    "work-in-progress" ∉ (end_dev "2026-10-12" emptyProject).topics ∧
    (begin_dev "2026-10-12" (end_dev "2026-10-12" emptyProject)).map
        (fun s => s.changelog_md) =
      .ok (some { intro := "", sections := [
        { version := "v" ++ "0.6.0", date := "in development", content := "" },
        { version := "v" ++ String.mk (subQual emptyProject.version.data),
          date := "2026-10-12", content := "Initial release" }] }) :=
  claim_C4 emptyProject "2026-10-12" "0.6.0" rfl rfl rfl (by decide)

theorem buildLoop_fst (sign_assets : Bool) :
    ∀ fs : List String, (buildLoop sign_assets fs).1 = fs := by
  intro fs
  induction fs with
  | nil => rfl
  | cons f rest ih => simp [buildLoop, ih]

theorem buildLoop_signed_length :
    ∀ fs : List String, (buildLoop true fs).2.length = (buildLoop true fs).1.length := by
  intro fs
  induction fs with
  | nil => rfl
  | cons f rest ih => simp [buildLoop, ih]

theorem buildLoop_unsigned :
    ∀ fs : List String, (buildLoop false fs).2 = [] := by
  intro fs
  induction fs with
  | nil => rfl
  | cons f rest ih => simp [buildLoop, ih]

/-- C5 (amended): after a build, the signature list pairs up with the
asset list when signing is enabled (one detached signature per asset) and
is empty when signing is disabled; so `assetSignatures` is always empty or
of the same length as `assets`, but a build with signing disabled
populates `assets` while leaving `assetSignatures` empty, refuting
"populated together or not at all". `build` is the only operation of the
release state machine that writes either field. -/
theorem claim_C5 (sign_assets : Bool) (distFiles : List String) (st : ProjectState) :
    assetsInvariant (build sign_assets distFiles st) ∧
    (sign_assets = true →
      (build sign_assets distFiles st).assets_asc.length =
        (build sign_assets distFiles st).assets.length) ∧
    (sign_assets = false → (build sign_assets distFiles st).assets_asc = []) ∧
    (build sign_assets distFiles st).assets = distFiles := by
  refine ⟨?_, ?_, ?_, ?_⟩
  · cases sign_assets with
    | true => exact Or.inr (by simpa [build] using buildLoop_signed_length distFiles)
    | false => exact Or.inl (by simpa [build] using buildLoop_unsigned distFiles)
  · intro hs
    subst hs
    simpa [build] using buildLoop_signed_length distFiles
  · intro hs
    subst hs
    simpa [build] using buildLoop_unsigned distFiles
  · simpa [build] using buildLoop_fst sign_assets distFiles

/-- C5 counterexample: a build with signing disabled on a dist directory
with one wheel populates `assets` but not `assets_asc`, so the two fields
are not "populated together or not at all". -/
theorem claim_C5_counterexample :
    ¬ (((build false ["dist/foo-0.1.0-py3-none-any.whl"] emptyProject).assets = []) ↔
       ((build false ["dist/foo-0.1.0-py3-none-any.whl"] emptyProject).assets_asc = [])) := by
  decide

/-- Witness for C5: the theorem applied at a signing-disabled and a
signing-enabled build. -/
theorem claim_C5_witness :
    (build false ["dist/a.whl"] emptyProject).assets_asc = [] ∧
    (build true ["dist/a.whl", "dist/a.tar.gz"] emptyProject).assets_asc.length =
      (build true ["dist/a.whl", "dist/a.tar.gz"] emptyProject).assets.length :=
  ⟨(claim_C5 false ["dist/a.whl"] emptyProject).2.2.1 rfl,
   (claim_C5 true ["dist/a.whl", "dist/a.tar.gz"] emptyProject).2.1 rfl⟩

/-- C6: `set_changelog` deletes the first existing candidate when the
document is absent (a no-op when no candidate exists), overwrites the
first existing candidate when the document is present, and otherwise
creates the highest-priority candidate (`CHANGELOG.md` for the root
variant, `docs/changelog.rst` for the docs variant); all other files are
untouched. -/
theorem claim_C6 (value : Option Changelog) (st : ProjectState) :
    (value = none → ∀ c, st.changelog_md = some c →
      set_changelog value false st = { st with changelog_md := none }) ∧
    (value = none → st.changelog_md = none → ∀ c, st.changelog_rst = some c →
      set_changelog value false st = { st with changelog_rst := none }) ∧
    (value = none → st.changelog_md = none → st.changelog_rst = none →
      set_changelog value false st = st) ∧
    (∀ v, value = some v → ∀ c, st.changelog_md = some c →
      set_changelog value false st = { st with changelog_md := some v }) ∧
    (∀ v, value = some v → st.changelog_md = none → ∀ c, st.changelog_rst = some c →
      set_changelog value false st = { st with changelog_rst := some v }) ∧
    (∀ v, value = some v → st.changelog_md = none → st.changelog_rst = none →
      set_changelog value false st = { st with changelog_md := some v }) ∧
    (value = none → ∀ c, st.docs_changelog = some c →
      set_changelog value true st = { st with docs_changelog := none }) ∧
    (value = none → st.docs_changelog = none → set_changelog value true st = st) ∧
    (∀ v, value = some v → ∀ c, st.docs_changelog = some c →
      set_changelog value true st = { st with docs_changelog := some v }) ∧
    (∀ v, value = some v → st.docs_changelog = none →
      set_changelog value true st = { st with docs_changelog := some v }) := by
  refine ⟨?_, ?_, ?_, ?_, ?_, ?_, ?_, ?_, ?_, ?_⟩
  · rintro rfl c hmd; simp [set_changelog, hmd]
  · rintro rfl hmd c hrst; simp [set_changelog, hmd, hrst]
  · rintro rfl hmd hrst; simp [set_changelog, hmd, hrst]
  · rintro v rfl c hmd; simp [set_changelog, hmd]
  · rintro v rfl hmd c hrst; simp [set_changelog, hmd, hrst]
  · rintro v rfl hmd hrst; simp [set_changelog, hmd, hrst]
  · rintro rfl c hd; simp [set_changelog, hd]
  · rintro rfl hd; simp [set_changelog, hd]
  · rintro v rfl c hd; simp [set_changelog, hd]
  · rintro v rfl hd; simp [set_changelog, hd]

/-- A concrete changelog document for the C6 witness. -/
def sampleChangelog : Changelog :=
  { intro := "",
    sections := [{ version := "v0.1.0", date := "2025-01-01", content := "- stuff" }] }

/-- Witness for C6: saving a document into a project with no candidate
creates `CHANGELOG.md`; saving an absent document there is a no-op. -/
theorem claim_C6_witness :
    set_changelog (some sampleChangelog) false emptyProject =
      { emptyProject with changelog_md := some sampleChangelog } ∧
    set_changelog none false emptyProject = emptyProject :=
  ⟨(claim_C6 (some sampleChangelog) emptyProject).2.2.2.2.2.1 sampleChangelog rfl rfl rfl,
   (claim_C6 none emptyProject).2.2.1 rfl rfl rfl⟩

theorem paginateTake_all_ok {α : Type} :
    ∀ (chain : List (Page α)) (k : Nat), (∀ p ∈ chain, p.ok = true) →
      ∃ n, paginateTake chain k = .ok (((chain.map Page.elems).flatten).take k) n := by
  intro chain
  induction chain with
  | nil => intro k _; exact ⟨0, by simp [paginateTake]⟩
  | cons p rest ih =>
    intro k hok
    have hp : p.ok = true := hok p (List.mem_cons_self p rest)
    have hrest : ∀ q ∈ rest, q.ok = true := fun q hq => hok q (List.mem_cons_of_mem p hq)
    match k with
    | 0 => exact ⟨1, by simp [paginateTake]⟩
    | k + 1 =>
      by_cases hlen : k + 1 ≤ p.elems.length
      · refine ⟨1, ?_⟩
        unfold paginateTake
        rw [if_pos hp, if_pos hlen]
        rw [List.map_cons, List.flatten_cons, List.take_append_eq_append_take]
        rw [show k + 1 - p.elems.length = 0 from by omega]
        simp
      · match rest with
        | [] =>
          refine ⟨1, ?_⟩
          unfold paginateTake
          rw [if_pos hp, if_neg hlen]
          show TakeResult.ok p.elems 1 = _
          rw [List.map_cons, List.map_nil, List.flatten_cons, List.flatten_nil,
            List.append_nil]
          rw [List.take_of_length_le (by omega : p.elems.length ≤ k + 1)]
        | q :: qrest =>
          obtain ⟨n, hn⟩ := ih (k + 1 - p.elems.length) hrest
          refine ⟨n + 1, ?_⟩
          unfold paginateTake
          rw [if_pos hp, if_neg hlen]
          show prependTR p.elems (paginateTake (q :: qrest) (k + 1 - p.elems.length)) = _
          rw [hn]
          simp only [prependTR]
          conv_rhs => rw [List.map_cons, List.flatten_cons, List.take_append_eq_append_take,
            List.take_of_length_le (by omega : p.elems.length ≤ k + 1)]

theorem paginateTake_current_page {α : Type} (p : Page α) (rest : List (Page α))
    (k : Nat) (hok : p.ok = true) (hk : k ≤ p.elems.length) :
    paginateTake (p :: rest) k = .ok (p.elems.take k) 1 := by
  match k with
  | 0 => rfl
  | k + 1 =>
    unfold paginateTake
    rw [if_pos hok, if_pos hk]

theorem paginateTake_abort {α : Type} (p q : Page α) (qrest : List (Page α))
    (k : Nat) (hp : p.ok = true) (hq : q.ok = false)
    (hk : p.elems.length < k) :
    paginateTake (p :: q :: qrest) k = .err p.elems 2 := by
  match k with
  | 0 => omega
  | k + 1 =>
    have hnle : ¬ (k + 1 ≤ p.elems.length) := by omega
    unfold paginateTake
    rw [if_pos hp, if_neg hnle]
    show prependTR p.elems (paginateTake (q :: qrest) (k + 1 - p.elems.length)) = _
    obtain ⟨m, hm⟩ : ∃ m, k + 1 - p.elems.length = m + 1 :=
      ⟨k - p.elems.length, by omega⟩
    rw [hm]
    unfold paginateTake
    rw [if_neg (by simp [hq])]
    simp [prependTR]

/-- C7: an ok GET response with a next link is handed to `paginate`; the
lazy sequence yields the concatenation of the pages' JSON array elements
in page order; consuming within the current page issues no further
request (exactly the one request already made); a non-ok page raises the
structured exception, aborting after the elements already yielded; and on
the spec's three-pages-of-two scenario, six elements cost exactly three
requests, two elements one request, four elements two requests, and
over-demanding stops at six elements and three requests. -/
theorem claim_C7 :
    (∀ r : HResp (List Nat), respOk r = true → r.hasNext = true →
      callGH (some "get") false r = .paginated r) ∧
    (∀ (chain : List (Page Nat)) (k : Nat), (∀ p ∈ chain, p.ok = true) →
      ∃ n, paginateTake chain k = .ok (((chain.map Page.elems).flatten).take k) n) ∧
    (∀ (p : Page Nat) (rest : List (Page Nat)) (k : Nat), p.ok = true →
      k ≤ p.elems.length → paginateTake (p :: rest) k = .ok (p.elems.take k) 1) ∧
    (∀ (p q : Page Nat) (qrest : List (Page Nat)) (k : Nat), p.ok = true →
      q.ok = false → p.elems.length < k →
      paginateTake (p :: q :: qrest) k = .err p.elems 2) ∧
    paginateTake threePages 6 = .ok [1, 2, 3, 4, 5, 6] 3 ∧
    paginateTake threePages 2 = .ok [1, 2] 1 ∧
    paginateTake threePages 4 = .ok [1, 2, 3, 4] 2 ∧
    paginateTake threePages 7 = .ok [1, 2, 3, 4, 5, 6] 3 := by
  refine ⟨?_, paginateTake_all_ok, paginateTake_current_page, paginateTake_abort,
    by decide, by decide, by decide, by decide⟩
  intro r h1 h2
  have hget : lowerStr "get" = "get" := by decide
  simp [callGH, h1, h2, hget]

/-- Witness for C7: one ok page of two elements, one element demanded:
one request only. -/
theorem claim_C7_witness :
    paginateTake ([⟨true, [9, 9]⟩] : List (Page Nat)) 1 = .ok [9] 1 :=
  (claim_C7.2.2.1 ⟨true, [9, 9]⟩ [] 1 rfl (by decide)).trans (by decide)

/-- C8 (amended): when the dependency-bot config exists, the bootstrap flow
POSTs the two label definitions unconditionally — the requests issued do
not depend on the remote label state, there is no existence check — and
the step completes exactly when both POSTs are accepted; against the
platform's duplicate-rejecting label endpoint it therefore succeeds only
when neither label already exists, rather than treating a pre-existing
label as success. Without the config file no label request is issued. -/
theorem claim_C8 (postOk : LabelReq → Bool) :
    labelStep false postOk = ([], true) ∧
    ((labelStep true postOk).1 =
      if postOk dependenciesLabel then [dependenciesLabel, actionsLabel]
      else [dependenciesLabel]) ∧
    ((labelStep true postOk).2 = (postOk dependenciesLabel && postOk actionsLabel)) ∧
    (∀ existing : List String,
      (labelStep true (githubLabelPost existing)).2 = true ↔
        ("dependencies" ∉ existing ∧ "d:github-actions" ∉ existing)) := by
  refine ⟨rfl, ?_, ?_, ?_⟩
  · by_cases h1 : postOk dependenciesLabel <;>
      by_cases h2 : postOk actionsLabel <;>
      simp [labelStep, h1, h2]
  · by_cases h1 : postOk dependenciesLabel <;>
      by_cases h2 : postOk actionsLabel <;>
      simp [labelStep, h1, h2]
  · intro existing
    by_cases h1 : "dependencies" ∈ existing <;>
      by_cases h2 : "d:github-actions" ∈ existing <;>
      simp [labelStep, githubLabelPost, dependenciesLabel, actionsLabel, h1, h2]

/-- C8 counterexample: with the `dependencies` label already present
remotely, the step issues its POST anyway, the platform rejects it, and
the step fails after the first request instead of treating the presence
as success. -/
theorem claim_C8_counterexample :
    (labelStep true (githubLabelPost ["dependencies"])).2 = false ∧
    (labelStep true (githubLabelPost ["dependencies"])).1 = [dependenciesLabel] := by
  decide

/-- Witness for C8: on a repository with neither label, the step completes. -/
theorem claim_C8_witness :
    (labelStep true (githubLabelPost [])).2 = true :=
  ((claim_C8 (githubLabelPost [])).2.2.2 []).mpr
    ⟨List.not_mem_nil "dependencies", List.not_mem_nil "d:github-actions"⟩

theorem finishLookup_snd (e : String) (enc : Option String) :
    (finishLookup e enc).2 = enc := by
  rcases h1 : lookupStr e typesMapStrict with _ | t <;>
    rcases h2 : lookupStr e typesMapNonStrict with _ | t2 <;>
    simp [finishLookup, h1, h2]

theorem applySuffixLoop_none (p : List Char × List Char) (n : Nat)
    (h : lookupStr (lowerStr (String.mk p.2)) suffixMap = none) :
    applySuffixLoop (n + 1) p = p := by
  have hstep : applySuffixLoop (n + 1) (p.1, p.2) = (p.1, p.2) := by
    simp [applySuffixLoop, h]
  simpa using hstep

theorem guess_type_no_encoding (f : String) (ext : List Char)
    (hext : (splitextList f.data).2 = ext)
    (hsuf : lookupStr (lowerStr (String.mk ext)) suffixMap = none)
    (henc : lookupStr (String.mk ext) encodingsMap = none) :
    guess_type f = finishLookup (lowerStr (String.mk ext)) none := by
  subst hext
  simp only [guess_type]
  rw [applySuffixLoop_none (splitextList f.data) 3 hsuf]
  rw [henc]

theorem guess_type_encoding (f : String) (ext : List Char) (enc : String)
    (hext : (splitextList f.data).2 = ext)
    (hsuf : lookupStr (lowerStr (String.mk ext)) suffixMap = none)
    (henc : lookupStr (String.mk ext) encodingsMap = some enc) :
    guess_type f =
      finishLookup (lowerStr (String.mk (splitextList (splitextList f.data).1).2))
        (some enc) := by
  subst hext
  simp only [guess_type]
  rw [applySuffixLoop_none (splitextList f.data) 3 hsuf]
  rw [henc]

/-- C9: the MIME resolution for release-asset upload sends a `.whl` file
as `application/zip` (via the registration the release command performs),
a `.gz`-compressed file as `application/gzip`, and a file whose extension
is in none of the tables as `application/octet-stream`; concrete wheel,
sdist, `.tgz` and unknown-extension names behave accordingly. -/
theorem claim_C9 :
    (∀ f : String, (splitext f).2 = ".whl" → mime_type f = "application/zip") ∧
    (∀ f : String, (splitext f).2 = ".gz" → mime_type f = "application/gzip") ∧
    (∀ f : String,
      lookupStr (lowerStr (splitext f).2) suffixMap = none →
      lookupStr (splitext f).2 encodingsMap = none →
      lookupStr (lowerStr (splitext f).2) typesMapStrict = none →
      lookupStr (lowerStr (splitext f).2) typesMapNonStrict = none →
      mime_type f = "application/octet-stream") ∧
    mime_type "foo-1.0-py3-none-any.whl" = "application/zip" ∧
    mime_type "foo-1.0.tar.gz" = "application/gzip" ∧
    mime_type "foo-1.0.tgz" = "application/gzip" ∧
    mime_type "foo-1.0.qqq" = "application/octet-stream" := by
  refine ⟨?_, ?_, ?_, by decide, by decide, by decide, by decide⟩
  · intro f hl
    have hl' : (splitextList f.data).2 = ['.', 'w', 'h', 'l'] := congrArg String.data hl
    have hg := guess_type_no_encoding f ['.', 'w', 'h', 'l'] hl' (by decide) (by decide)
    simp only [mime_type]
    rw [hg]
    rw [show finishLookup (lowerStr (String.mk ['.', 'w', 'h', 'l'])) none =
      (some "application/zip", none) from by decide]
  · intro f hl
    have hl' : (splitextList f.data).2 = ['.', 'g', 'z'] := congrArg String.data hl
    have hg := guess_type_encoding f ['.', 'g', 'z'] "gzip" hl' (by decide) (by decide)
    simp only [mime_type]
    rw [hg]
    rcases hfl : finishLookup
        (lowerStr (String.mk (splitextList (splitextList f.data).1).2))
        (some "gzip") with ⟨mt, enc⟩
    have hsnd := finishLookup_snd
      (lowerStr (String.mk (splitextList (splitextList f.data).1).2)) (some "gzip")
    rw [hfl] at hsnd
    simp only at hsnd
    subst hsnd
    simp
  · intro f h1 h2 h3 h4
    have h1' : lookupStr (lowerStr (String.mk (splitextList f.data).2)) suffixMap =
      none := h1
    have h2' : lookupStr (String.mk (splitextList f.data).2) encodingsMap = none := h2
    have h3' : lookupStr (lowerStr (String.mk (splitextList f.data).2)) typesMapStrict =
      none := h3
    have h4' : lookupStr (lowerStr (String.mk (splitextList f.data).2))
      typesMapNonStrict = none := h4
    have hg := guess_type_no_encoding f (splitextList f.data).2 rfl h1' h2'
    simp only [mime_type]
    rw [hg]
    simp only [finishLookup]
    rw [h3', h4']

/-- Witness for C9: the theorem's general branches applied at concrete
filenames. -/
theorem claim_C9_witness :
    mime_type "pkg-2.0-py3-none-any.whl" = "application/zip" ∧
    mime_type "pkg-2.0.tar.gz" = "application/gzip" ∧
    mime_type "pkg-2.0.unknownext" = "application/octet-stream" :=
  ⟨claim_C9.1 "pkg-2.0-py3-none-any.whl" (by decide),
   claim_C9.2.1 "pkg-2.0.tar.gz" (by decide),
   claim_C9.2.2.1 "pkg-2.0.unknownext" (by decide) (by decide) (by decide) (by decide)⟩

/-- C10: a `raw=True` call returns the response object unconditionally —
no status check, no structured error, no pagination, no JSON decoding —
even for a non-2xx status; the structured-error raise on a non-ok status
applies only to non-raw calls. -/
theorem claim_C10 (α : Type) (m : String) (r : HResp α) :
    callGH (some m) true r = .raw r ∧
    (respOk r = false → callGH (some m) false r = .errGitHub r) := by
  constructor
  · simp [callGH]
  · intro h
    simp [callGH, h]

/-- Witness for C10: a 404 response returned raw, and raised structurally
without raw. -/
theorem claim_C10_witness :
    callGH (some "post") true ({ status := 404, hasNext := false, body := 0 } : HResp Nat) =
      .raw { status := 404, hasNext := false, body := 0 } ∧
    callGH (some "post") false ({ status := 404, hasNext := false, body := 0 } : HResp Nat) =
      .errGitHub { status := 404, hasNext := false, body := 0 } :=
  ⟨(claim_C10 Nat "post" { status := 404, hasNext := false, body := 0 }).1,
   (claim_C10 Nat "post" { status := 404, hasNext := false, body := 0 }).2 rfl⟩

end PyRepo
